import Mathlib

/-!
Shallow embedding of the fern-format crate (src/lib.rs): an owo-colors
style model, the `gen_color` palette, the thread-identity color cache
(`ThreadName`), the per-record renderer, and the `Format` builder.
Machine integers are modelled as `Nat` with explicit `% 2^w` where the
source wraps (the `AtomicU8` style counter). Fallible operations
(string parsing `unwrap`s) return `Option`.
-/

/-- Foreground colors used by the source (owo-colors color methods). -/
inductive FgColor
  | BrightWhite
  | BrightBlue
  | BrightYellow
  | BrightCyan
  | BrightPurple
  | BrightGreen
  | BrightRed
  | White
deriving DecidableEq

/-- Model of `owo_colors::Style`: the attribute bundle the source sets
(foreground color, bold, italic, dimmed). -/
structure Style where
  fg : Option FgColor := none
  isBold : Bool := false
  isItalic : Bool := false
  isDimmed : Bool := false
deriving DecidableEq

/-- Model of `Style::new()` -/
def Style.new : Style := {}

/-- Model of `Style::bold` -/
def Style.bold (s : Style) : Style := { s with isBold := true }

/-- Model of `Style::italic` -/
def Style.italic (s : Style) : Style := { s with isItalic := true }

/-- Model of `Style::dimmed` -/
def Style.dimmed (s : Style) : Style := { s with isDimmed := true }

/-- Model of `Style::bright_white` -/
def Style.bright_white (s : Style) : Style := { s with fg := some .BrightWhite }

/-- Model of `Style::bright_blue` -/
def Style.bright_blue (s : Style) : Style := { s with fg := some .BrightBlue }

/-- Model of `Style::bright_yellow` -/
def Style.bright_yellow (s : Style) : Style := { s with fg := some .BrightYellow }

/-- Model of `Style::bright_cyan` -/
def Style.bright_cyan (s : Style) : Style := { s with fg := some .BrightCyan }

/-- Model of `Style::bright_purple` -/
def Style.bright_purple (s : Style) : Style := { s with fg := some .BrightPurple }

/-- Model of `Style::bright_green` -/
def Style.bright_green (s : Style) : Style := { s with fg := some .BrightGreen }

/-- Model of `Style::bright_red` -/
def Style.bright_red (s : Style) : Style := { s with fg := some .BrightRed }

/-- Model of `Style::white` -/
def Style.white (s : Style) : Style := { s with fg := some .White }

/-- Model of `gen_color` (src/lib.rs lines 279-317). The source takes a `u8`; the
body's first use of `i` is `i % 28`, so embedding the argument as `Nat`
agrees with the `u8` semantics on all `u8` values. The `_` arms embed
the source's `unreachable!()` arms; they are provably never taken since
`i % 28 / 14 < 2`, `i % 14 / 7 < 2` and `i % 7 / 1 < 7`. -/
def gen_color (i : Nat) : Style :=
  let BOLD := 2
  let COLOR := 7
  let ITALIC := 2
  let total := BOLD * COLOR * ITALIC
  let style := Style.new
  let i := i % total
  let total := total / ITALIC
  let style := match i / total with
    | 0 => style
    | 1 => style.italic
    | _ => style
  let i := i % total
  let total := total / BOLD
  let style := match i / total with
    | 0 => style
    | 1 => style.bold
    | _ => style
  let i := i % total
  let total := total / COLOR
  let style := match i / total with
    | 0 => style.bright_white
    | 1 => style.bright_blue
    | 2 => style.bright_yellow
    | 3 => style.bright_cyan
    | 4 => style.bright_purple
    | 5 => style.bright_green
    | 6 => style.bright_red
    | _ => style
  style

/-- Model of `log::Level` -/
inductive LogLevel
  | error
  | warn
  | info
  | debug
  | trace
deriving DecidableEq

/-- Uppercase `Display` of `log::Level` ("ERROR", "WARN", ...). -/
def levelName : LogLevel → String
  | .error => "ERROR"
  | .warn => "WARN"
  | .info => "INFO"
  | .debug => "DEBUG"
  | .trace => "TRACE"

/-- Model of `level_style` (src/lib.rs lines 259-267). -/
def level_style : LogLevel → Style
  | .error => Style.new.bright_red.bold
  | .warn => Style.new.bright_yellow.bold
  | .info => Style.new.bright_white.bold
  | .debug => Style.new.white
  | .trace => Style.new.dimmed

/-- Specification-side description of one palette cell: emphasis axis
`e` (0 = plain, 1 = italic), weight axis `w` (0 = normal, 1 = bold),
hue axis `h` indexing the fixed ordered hue list. -/
def hueList : List FgColor :=
  [.BrightWhite, .BrightBlue, .BrightYellow, .BrightCyan, .BrightPurple, .BrightGreen, .BrightRed]

/-- Specification-side palette cell with hue low-order, weight next,
emphasis highest-order. -/
def paletteStyle (e w h : Nat) : Style :=
  { fg := hueList[h]?, isBold := w == 1, isItalic := e == 1, isDimmed := false }

/-- Model of `HashMap<ThreadId, Style>` as an association list with
`ThreadId` embedded as the thread's `u64` value (a `Nat`).
`lookupStyle` models `HashMap::get` + `Option::copied`. -/
def lookupStyle : List (Nat × Style) → Nat → Option Style
  | [], _ => none
  | (k, v) :: rest, id => if k = id then some v else lookupStyle rest id

/-- Models `HashMap::insert`: replaces the value when the key is
present, otherwise adds the binding. -/
def insertStyle : List (Nat × Style) → Nat → Style → List (Nat × Style)
  | [], id, st => [(id, st)]
  | (k, v) :: rest, id, st =>
    if k = id then (k, st) :: rest else (k, v) :: insertStyle rest id st

/-- Model of `ThreadName` (src/lib.rs lines 170-175). `index` models the
`AtomicU8` counter as a `Nat` kept below 256 by wrapping on update. -/
structure ThreadName where
  colorize : Bool
  print : Bool
  thread_colors : List (Nat × Style)
  index : Nat
deriving DecidableEq

/-- Model of `ThreadName::new` (src/lib.rs lines 178-187). -/
def ThreadName.new (colorize print : Bool) : ThreadName :=
  { colorize := colorize, print := print, thread_colors := [], index := 0 }

/-- The thread-style computation of `ThreadName::fmt` (src/lib.rs lines
197-218), i.e. the cache's `styleFor` operation, one call made atomic by
the lock discipline. Returns the style, the counter value fetched by
`fetch_add` when a first-time insert happened (`none` on a cache hit or
when colorizing is off; this middle component is specification-only
instrumentation exposing the value `i` of line 209), and the updated
state. The double lookup embeds the read-lock probe (line 201) and the
re-check under the write lock (line 206); `fetch_add(1)` on `AtomicU8`
returns the old value and wraps modulo 256. -/
def ThreadName.styleFor (self : ThreadName) (id : Nat) : Style × Option Nat × ThreadName :=
  if self.colorize then
    match lookupStyle self.thread_colors id with
    | some style => (style, none, self)
    | none =>
      match lookupStyle self.thread_colors id with
      | some style => (style, none, self)
      | none =>
        let i := self.index
        let style := gen_color i
        (style, some i,
          { self with
              thread_colors := insertStyle self.thread_colors id style,
              index := (i + 1) % 256 })
  else (Style.new, none, self)

/-- Folds a sequence of `styleFor` calls (one per record rendered),
tracking only the state. -/
def ThreadName.run (self : ThreadName) : List Nat → ThreadName
  | [] => self
  | id :: ids => ((self.styleFor id).2.2).run ids

/-- Like `ThreadName.run` but also collects, per call, the counter value
fetched at a first-time insert (`none` for hits / no-color calls). -/
def ThreadName.runTrace (self : ThreadName) : List Nat → List (Option Nat) × ThreadName
  | [] => ([], self)
  | id :: ids =>
    let r := self.styleFor id
    let rest := (r.2.2).runTrace ids
    (r.2.1 :: rest.1, rest.2)

/-- Decimal digit character. -/
def digitChar (d : Nat) : Char := Char.ofNat (48 + d)

/-- Decimal representation of a `Nat`, most significant digit first:
the `Display`/`Debug` rendering of an unsigned integer. -/
def natDigits (n : Nat) : List Char :=
  if _h : n < 10 then [digitChar n]
  else natDigits (n / 10) ++ [digitChar (n % 10)]
decreasing_by exact Nat.div_lt_self (by omega) (by omega)

/-- One step of `str::parse::<u64>`: a decimal digit's value. -/
def parseDigit (c : Char) : Option Nat :=
  if 48 ≤ c.toNat ∧ c.toNat ≤ 57 then some (c.toNat - 48) else none

/-- Accumulating loop of `str::parse::<u64>` over the characters. -/
def parseNatFrom (acc : Nat) : List Char → Option Nat
  | [] => some acc
  | c :: cs =>
    match parseDigit c with
    | some d => parseNatFrom (acc * 10 + d) cs
    | none => none

/-- Model of `str::parse::<u64>` on a digit string: fails on the empty string or
on any non-digit character. (The source only ever parses the digit
run inside a `ThreadId` debug string, so signs need not be modelled.) -/
def parseU64 : List Char → Option Nat
  | [] => none
  | c :: cs => parseNatFrom 0 (c :: cs)

/-- Model of `str::strip_prefix`: removes `p` from the front of the string when
it is there, otherwise `None`. -/
def dropFront : List Char → List Char → Option (List Char)
  | [], rest => some rest
  | _ :: _, [] => none
  | p :: ps, c :: cs => if p = c then dropFront ps cs else none

/-- Model of `str::strip_suffix`: removes `suf` from the end of the string when
it is there, otherwise `None`. -/
def dropBack (suf s : List Char) : Option (List Char) :=
  (dropFront suf.reverse s.reverse).map List.reverse

/-- Model of `format!("{:?}", id)` for a `ThreadId` whose numeric value is `id`:
the standard library guarantees the debug form `ThreadId(<n>)`. -/
def threadIdDebug (id : Nat) : List Char :=
  "ThreadId(".data ++ natDigits id ++ [')']

/-- Model of `threadid_as_u64` (src/lib.rs lines 272-277), with each source
`unwrap` embedded as an `Option` bind: `none` models a panic. -/
def threadid_as_u64 (id : Nat) : Option Nat :=
  (dropFront "ThreadId(".data (threadIdDebug id)).bind fun s =>
    (dropBack [')'] s).bind fun s =>
      parseU64 s

/-- The escape character starting every ANSI escape sequence. -/
def escChar : Char := Char.ofNat 27

/-- ANSI foreground code emitted by owo-colors for each color method the
source uses (bright variants 90-97, plain white 37). -/
def FgColor.ansiFg : FgColor → String
  | .BrightWhite => "97"
  | .BrightBlue => "94"
  | .BrightYellow => "93"
  | .BrightCyan => "96"
  | .BrightPurple => "95"
  | .BrightGreen => "92"
  | .BrightRed => "91"
  | .White => "37"

/-- The SGR parameter list owo-colors emits for a style's set attributes. -/
def Style.codeList (s : Style) : List String :=
  (if s.isBold then ["1"] else []) ++
    (if s.isDimmed then ["2"] else []) ++
      (if s.isItalic then ["3"] else []) ++
        (match s.fg with | some c => [c.ansiFg] | none => [])

/-- Model of `value.style(st)` rendered through `Display`: owo-colors writes no
escape sequence at all for a plain (empty) style, otherwise it wraps the
text in an SGR prefix and the reset suffix. -/
def styled (st : Style) (s : String) : String :=
  if st = Style.new then s
  else "\x1b[" ++ String.intercalate ";" st.codeList ++ "m" ++ s ++ "\x1b[0m"

/-- The current thread as seen by `std::thread::current()`: its
`ThreadId` numeric value and its optional name. -/
structure ThreadCtx where
  id : Nat
  name : Option String
deriving DecidableEq

/-- The thread label text the source interpolates into `({})`. -/
def threadLabel (cur : ThreadCtx) : String :=
  match cur.name with
  | some name => name
  | none => String.mk (natDigits cur.id)

/-- Model of `ThreadName::fmt` (src/lib.rs lines 190-230): the string written for
the thread segment plus the updated cache state. `none` models a panic
of the `threadid_as_u64` `unwrap`s. -/
def ThreadName.fmtR (self : ThreadName) (cur : ThreadCtx) : Option (String × ThreadName) :=
  if !self.print then some ("", self)
  else
    let r := self.styleFor cur.id
    let thread_style := r.1
    let self' := r.2.2
    match cur.name with
    | some name =>
      some (" " ++ styled thread_style ("(" ++ name ++ ")"), self')
    | none =>
      match threadid_as_u64 cur.id with
      | some n =>
        some (" " ++ styled thread_style ("(" ++ String.mk (natDigits n) ++ ")"), self')
      | none => none

/-- Model of `Message::fmt` (src/lib.rs lines 124-134). -/
def messageR (colorize : Bool) (level : LogLevel) (message : String) : String :=
  let style := if colorize then level_style level else Style.new
  " " ++ styled style message

/-- Model of `Level::fmt` (src/lib.rs lines 244-252): the bracketed label is
written only when color is off. -/
def levelR (level : LogLevel) (use_color : Bool) : String :=
  if !use_color then " [" ++ levelName level ++ "]" else ""

/-- Model of `Time` (src/lib.rs line 136): the UTC offset captured at renderer
construction, in seconds east, as an `Int`. -/
structure Time where
  offset : Int
deriving DecidableEq

/-- Model of `Time::new` (src/lib.rs lines 140-151): the argument embeds the
result of `UtcOffset::current_local_offset()`; on error the offset
falls back to UTC (+0) and the `eprintln!` diagnostic fires, modelled
by the returned `Bool`. -/
def Time.new (r : Except Unit Int) : Time × Bool :=
  match r with
  | .ok offset => ({ offset := offset }, false)
  | .error _ => ({ offset := 0 }, true)

/-- Model of `Time::fmt` (src/lib.rs lines 153-167): the argument embeds the
result of formatting the current wall-clock time with the
`HH:MM:SS.ffffff` description; `unwrap_or_else` substitutes the fixed
placeholder on error. -/
def timeDisplay (r : Except Unit String) : String :=
  match r with
  | .ok now => now
  | .error _ => "??:??:??.??????"

/-- A `log::Record`'s fields the callback reads. -/
structure Record where
  level : LogLevel
  target : String
deriving DecidableEq

/-- The closure body of `Format::callback` (src/lib.rs lines 86-98):
one record rendered to one line (the `"{}{}{} {}:{}"` format string),
threading the cache state. `now` embeds the per-record timestamp
formatting result consumed by `Time::fmt`. -/
def renderLine (use_color : Bool) (now : Except Unit String) (tn : ThreadName)
    (rec : Record) (message : String) (cur : ThreadCtx) : Option (String × ThreadName) :=
  match tn.fmtR cur with
  | none => none
  | some (tstr, tn') =>
    some (timeDisplay now ++ tstr ++ levelR rec.level use_color ++
      " " ++ rec.target ++ ":" ++ messageR use_color rec.level message, tn')

/-- Model of `supports_color::Stream` -/
inductive OutStream
  | Stdout
  | Stderr
deriving DecidableEq

/-- The capability record returned by the `supports_color` probe; only
`has_basic` is read by the source. -/
structure ColorSupport where
  has_basic : Bool
deriving DecidableEq

/-- Model of `supports_color` (src/lib.rs lines 254-256), with the external
environment probe `supports_color::on` passed in as an oracle. -/
def supports_color (probe : OutStream → Option ColorSupport) (stream : OutStream) : Bool :=
  match probe stream with
  | some support => support.has_basic
  | none => false

/-- Model of `Colorize` (src/lib.rs lines 27-31). -/
inductive Colorize
  | BlackWhite
  | Color
  | ColorIf (stream : OutStream)
deriving DecidableEq

/-- Model of `Colorize::use_color` (src/lib.rs lines 34-40). -/
def Colorize.use_color (self : Colorize) (probe : OutStream → Option ColorSupport) : Bool :=
  match self with
  | .BlackWhite => false
  | .Color => true
  | .ColorIf stream => supports_color probe stream

/-- Model of `Format` (src/lib.rs lines 16-25). -/
structure Format where
  colorize : Colorize
  color_threads : Bool
  thread_names : Bool
deriving DecidableEq

/-- Model of `Format::new` (src/lib.rs lines 45-51). -/
def Format.new : Format :=
  { colorize := .BlackWhite, color_threads := false, thread_names := false }

/-- Model of `Format::color_if_supported` (src/lib.rs lines 54-57). -/
def Format.color_if_supported (self : Format) (stream : OutStream) : Format :=
  { self with colorize := .ColorIf stream }

/-- Model of `Format::force_colors` (src/lib.rs lines 60-63). -/
def Format.force_colors (self : Format) : Format :=
  { self with colorize := .Color }

/-- Model of `Format::log_thread_names` (src/lib.rs lines 66-69). -/
def Format.log_thread_names (self : Format) : Format :=
  { self with thread_names := true }

/-- Model of `Format::uniquely_color_threads` (src/lib.rs lines 72-75). -/
def Format.uniquely_color_threads (self : Format) : Format :=
  ({ self with color_threads := true }).log_thread_names

/-- The state a materialized renderer closure captures (src/lib.rs
lines 81-84): the resolved color decision, the constructed `Time`, and
the fresh thread-identity cache. -/
structure Renderer where
  use_color : Bool
  now : Time
  thread_name : ThreadName
deriving DecidableEq

/-- The construction part of `Format::callback` (src/lib.rs lines
77-85), with the color probe and the local-offset result passed in as
oracles; the `Bool` reports whether the construction-time diagnostic
was emitted. -/
def Format.callback (self : Format) (probe : OutStream → Option ColorSupport)
    (offsetRes : Except Unit Int) : Renderer × Bool :=
  let use_color := self.colorize.use_color probe
  let timeNew := Time.new offsetRes
  let thread_name := ThreadName.new (use_color && self.color_threads) self.thread_names
  ({ use_color := use_color, now := timeNew.1, thread_name := thread_name }, timeNew.2)

/-- The cache map has at most one entry per thread identity. -/
def keysNodup (m : List (Nat × Style)) : Prop := (m.map Prod.fst).Nodup

/-- A string free of the ANSI escape character. -/
def escFree (s : String) : Prop := escChar ∉ s.data

instance escFreeDec (s : String) : Decidable (escFree s) :=
  inferInstanceAs (Decidable (escChar ∉ s.data))

instance keysNodupDec (m : List (Nat × Style)) : Decidable (keysNodup m) :=
  inferInstanceAs (Decidable (m.map Prod.fst).Nodup)

/-! Helper lemmas about the association-list map. -/

theorem lookupStyle_insertStyle_self (m : List (Nat × Style)) (id : Nat) (st : Style) :
    lookupStyle (insertStyle m id st) id = some st := by
  induction m with
  | nil => simp [insertStyle, lookupStyle]
  | cons p rest ih =>
    obtain ⟨k, v⟩ := p
    by_cases hk : k = id
    · simp [insertStyle, lookupStyle, hk]
    · simp [insertStyle, lookupStyle, hk, ih]

theorem lookupStyle_insertStyle_ne (m : List (Nat × Style)) (id id' : Nat) (st : Style)
    (h : id' ≠ id) : lookupStyle (insertStyle m id st) id' = lookupStyle m id' := by
  induction m with
  | nil =>
    have hne : id ≠ id' := Ne.symm h
    simp [insertStyle, lookupStyle, hne]
  | cons p rest ih =>
    obtain ⟨k, v⟩ := p
    by_cases hk : k = id
    · subst hk
      have hne : k ≠ id' := Ne.symm h
      simp [insertStyle, lookupStyle, hne]
    · by_cases hk' : k = id'
      · subst hk'
        simp [insertStyle, lookupStyle, hk]
      · simp [insertStyle, lookupStyle, hk, hk', ih]

theorem lookupStyle_eq_none_iff (m : List (Nat × Style)) (id : Nat) :
    lookupStyle m id = none ↔ id ∉ m.map Prod.fst := by
  induction m with
  | nil => simp [lookupStyle]
  | cons p rest ih =>
    obtain ⟨k, v⟩ := p
    by_cases hk : k = id
    · subst hk
      simp [lookupStyle]
    · have hne : id ≠ k := Ne.symm hk
      simp [lookupStyle, hk, ih, hne]

theorem keys_insertStyle_of_none (m : List (Nat × Style)) (id : Nat) (st : Style)
    (h : lookupStyle m id = none) :
    (insertStyle m id st).map Prod.fst = m.map Prod.fst ++ [id] := by
  induction m with
  | nil => simp [insertStyle]
  | cons p rest ih =>
    obtain ⟨k, v⟩ := p
    by_cases hk : k = id
    · simp [lookupStyle, hk] at h
    · simp [lookupStyle, hk] at h
      simp [insertStyle, hk, ih h]

/-! Helper lemmas about a single `styleFor` call. -/

theorem styleFor_colorize (s : ThreadName) (id : Nat) :
    ((s.styleFor id).2.2).colorize = s.colorize := by
  unfold ThreadName.styleFor
  split
  · split
    · rfl
    · rfl
  · rfl

theorem styleFor_print (s : ThreadName) (id : Nat) :
    ((s.styleFor id).2.2).print = s.print := by
  unfold ThreadName.styleFor
  split
  · split
    · rfl
    · rfl
  · rfl

theorem styleFor_of_not_colorize (s : ThreadName) (id : Nat) (h : s.colorize = false) :
    s.styleFor id = (Style.new, none, s) := by
  unfold ThreadName.styleFor
  simp [h]

theorem styleFor_of_lookup_some (s : ThreadName) (id : Nat) (st : Style)
    (hc : s.colorize = true) (hl : lookupStyle s.thread_colors id = some st) :
    s.styleFor id = (st, none, s) := by
  unfold ThreadName.styleFor
  simp [hc, hl]

theorem styleFor_of_lookup_none (s : ThreadName) (id : Nat)
    (hc : s.colorize = true) (hl : lookupStyle s.thread_colors id = none) :
    s.styleFor id = (gen_color s.index, some s.index,
      { s with thread_colors := insertStyle s.thread_colors id (gen_color s.index),
               index := (s.index + 1) % 256 }) := by
  unfold ThreadName.styleFor
  simp [hc, hl]

theorem styleFor_preserves_lookup (s : ThreadName) (id id' : Nat) (st : Style)
    (h : lookupStyle s.thread_colors id' = some st) :
    lookupStyle ((s.styleFor id).2.2).thread_colors id' = some st := by
  by_cases hc : s.colorize
  · match he : lookupStyle s.thread_colors id with
    | some st' => rw [styleFor_of_lookup_some s id st' hc he]; exact h
    | none =>
      rw [styleFor_of_lookup_none s id hc he]
      have hne : id' ≠ id := by
        intro hh
        rw [hh, he] at h
        exact Option.noConfusion h
      simpa [lookupStyle_insertStyle_ne _ _ _ _ hne] using h
  · rw [styleFor_of_not_colorize s id (by simpa using hc)]
    exact h

theorem styleFor_lookup_self (s : ThreadName) (id : Nat) (hc : s.colorize = true) :
    lookupStyle ((s.styleFor id).2.2).thread_colors id = some (s.styleFor id).1 := by
  match he : lookupStyle s.thread_colors id with
  | some st => rw [styleFor_of_lookup_some s id st hc he]; exact he
  | none =>
    rw [styleFor_of_lookup_none s id hc he]
    exact lookupStyle_insertStyle_self _ _ _

/-! Helper lemmas about runs of `styleFor` calls. -/

theorem run_colorize (ids : List Nat) : ∀ s : ThreadName, (s.run ids).colorize = s.colorize := by
  induction ids with
  | nil => intro s; rfl
  | cons id ids ih =>
    intro s
    rw [ThreadName.run, ih, styleFor_colorize]

theorem run_preserves_lookup (ids : List Nat) :
    ∀ (s : ThreadName) (id' : Nat) (st : Style),
      lookupStyle s.thread_colors id' = some st →
      lookupStyle ((s.run ids).thread_colors) id' = some st := by
  induction ids with
  | nil => intro s id' st h; exact h
  | cons id ids ih =>
    intro s id' st h
    exact ih _ _ _ (styleFor_preserves_lookup s id id' st h)

/-- Characterization of a run of first-time lookups from a colorizing
state: the fetched counter values are `index, index+1, ...` wrapped
modulo 256, and the counter ends at `index + N (mod 256)`. -/
theorem runTrace_spec (ids : List Nat) :
    ∀ s : ThreadName, s.colorize = true → s.index < 256 → ids.Nodup →
      (∀ id ∈ ids, lookupStyle s.thread_colors id = none) →
      (s.runTrace ids).1 = (List.range ids.length).map (fun k => some ((s.index + k) % 256)) ∧
      (s.runTrace ids).2.index = (s.index + ids.length) % 256 := by
  induction ids with
  | nil =>
    intro s hc hi _ _
    constructor
    · rfl
    · simpa [ThreadName.runTrace] using (Nat.mod_eq_of_lt hi).symm
  | cons id ids ih =>
    intro s hc hi hnd hnone
    have hl : lookupStyle s.thread_colors id = none := hnone id (by simp)
    have hstep := styleFor_of_lookup_none s id hc hl
    have hmod : (s.index + 1) % 256 < 256 := Nat.mod_lt _ (by omega)
    have hih := ih
      { s with thread_colors := insertStyle s.thread_colors id (gen_color s.index),
               index := (s.index + 1) % 256 }
      hc hmod hnd.of_cons (by
        intro id' hid'
        have hne : id' ≠ id := by
          intro hh
          subst hh
          exact (List.nodup_cons.mp hnd).1 hid'
        simpa [lookupStyle_insertStyle_ne _ _ _ _ hne] using hnone id' (by simp [hid']))
    rw [ThreadName.runTrace]
    simp only [hstep]
    constructor
    · rw [hih.1, List.length_cons, List.range_succ_eq_map, List.map_cons, List.map_map]
      dsimp only
      congr 1
      · congr 1
        omega
      · refine List.map_congr_left ?_
        intro a _
        simp only [Function.comp]
        congr 1
        omega
    · rw [hih.2, List.length_cons]
      dsimp only
      omega

/-! Helper lemmas for the thread-id debug-string round trip. -/

theorem parseDigit_digitChar (d : Nat) (h : d < 10) : parseDigit (digitChar d) = some d := by
  have hv : (48 + d).isValidChar := by
    unfold Nat.isValidChar
    omega
  have ht : (digitChar d).toNat = 48 + d := by
    simp [digitChar, Char.ofNat, hv, Char.ofNatAux, Char.toNat, UInt32.toNat]
  simp [parseDigit, ht]
  omega

theorem parseNatFrom_append (xs ys : List Char) :
    ∀ acc : Nat, parseNatFrom acc (xs ++ ys) =
      match parseNatFrom acc xs with
      | some a => parseNatFrom a ys
      | none => none := by
  induction xs with
  | nil => intro acc; simp [parseNatFrom]
  | cons c cs ih =>
    intro acc
    rw [List.cons_append, parseNatFrom, parseNatFrom]
    match parseDigit c with
    | some d => simp [ih]
    | none => simp

theorem parseNatFrom_natDigits (n : Nat) :
    ∀ acc : Nat, parseNatFrom acc (natDigits n) = some (acc * 10 ^ (natDigits n).length + n) := by
  induction n using Nat.strong_induction_on with
  | _ n ih =>
    intro acc
    by_cases h : n < 10
    · rw [natDigits, dif_pos h]
      simp [parseNatFrom, parseDigit_digitChar n h]
    · rw [natDigits, dif_neg h]
      have hlt : n / 10 < n := Nat.div_lt_self (by omega) (by omega)
      rw [parseNatFrom_append, ih (n / 10) hlt acc]
      have hd : n % 10 < 10 := Nat.mod_lt _ (by omega)
      simp only [parseNatFrom, parseDigit_digitChar (n % 10) hd]
      rw [List.length_append, List.length_singleton]
      congr 1
      have hpow : 10 ^ ((natDigits (n / 10)).length + 1) = 10 ^ (natDigits (n / 10)).length * 10 := by
        rw [pow_succ]
      rw [hpow, ← Nat.mul_assoc]
      generalize acc * 10 ^ (natDigits (n / 10)).length = A
      omega

theorem natDigits_ne_nil (n : Nat) : natDigits n ≠ [] := by
  rw [natDigits]
  by_cases h : n < 10
  · rw [dif_pos h]
    simp
  · rw [dif_neg h]
    simp

theorem parseU64_natDigits (n : Nat) : parseU64 (natDigits n) = some n := by
  have hne := natDigits_ne_nil n
  match hm : natDigits n with
  | [] => exact absurd hm hne
  | c :: cs =>
    have := parseNatFrom_natDigits n 0
    rw [hm] at this
    simp [parseU64, this]

theorem dropFront_append (p r : List Char) : dropFront p (p ++ r) = some r := by
  induction p with
  | nil => rfl
  | cons c cs ih => simp [dropFront, ih]

theorem threadid_roundtrip (id : Nat) : threadid_as_u64 id = some id := by
  rw [threadid_as_u64, threadIdDebug, List.append_assoc]
  rw [dropFront_append]
  rw [Option.some_bind]
  have hback : dropBack [')'] (natDigits id ++ [')']) = some (natDigits id) := by
    rw [dropBack]
    rw [List.reverse_append]
    simp [dropFront]
  rw [hback, Option.some_bind]
  exact parseU64_natDigits id

/-! Helper lemmas about rendering. -/

theorem styled_new (s : String) : styled Style.new s = s := by
  simp [styled]

theorem escFree_append (a b : String) : escFree (a ++ b) ↔ escFree a ∧ escFree b := by
  simp [escFree, String.data_append, List.mem_append, not_or]

theorem escFree_levelName (lvl : LogLevel) : escFree (levelName lvl) := by
  cases lvl <;> decide

theorem fmtR_of_not_colorize (tn : ThreadName) (cur : ThreadCtx) (hc : tn.colorize = false) :
    tn.fmtR cur =
      some ((if tn.print then " " ++ ("(" ++ threadLabel cur ++ ")") else ""), tn) := by
  rw [ThreadName.fmtR]
  cases hp : tn.print with
  | false => simp
  | true =>
    rw [styleFor_of_not_colorize tn cur.id hc]
    cases hn : cur.name with
    | some name => simp [styled_new, threadLabel, hn]
    | none => simp [threadid_roundtrip, styled_new, threadLabel, hn, String.mk]

/-- Claim C1 (amended): for every sequence of first-time `styleFor`
lookups by N distinct thread identities with N ≤ 256, starting from a
fresh colorizing cache, the N calls are assigned exactly the distinct
StyleIndex values 0, 1, ..., N-1 in call order (each insert takes the
current counter value and increments it by one, starting from 0). -/
theorem C1_distinct_indices (ids : List Nat) (p : Bool)
    (h1 : ids.Nodup) (h2 : ids.length ≤ 256) :
    ((ThreadName.new true p).runTrace ids).1 = (List.range ids.length).map some := by
  have hs := runTrace_spec ids (ThreadName.new true p) rfl (by simp [ThreadName.new])
    h1 (fun id _ => rfl)
  rw [hs.1]
  refine List.map_congr_left ?_
  intro k hk
  have hklt : k < ids.length := List.mem_range.mp hk
  simp only [ThreadName.new]
  congr 1
  omega

/-- Claim C1 counterexample: with 257 distinct thread identities (the
concrete input `List.range 257`), the assignment is not collision-free:
the 1st and the 257th first-time lookups both receive StyleIndex 0, so
the claim's "for every N" fails at N = 257. -/
theorem C1_counterexample :
    ((((ThreadName.new true true).runTrace (List.range 257)).1)[0]? = some (some 0)) ∧
    ((((ThreadName.new true true).runTrace (List.range 257)).1)[256]? = some (some 0)) := by
  have hs := runTrace_spec (List.range 257) (ThreadName.new true true) rfl
    (by simp [ThreadName.new]) (List.nodup_range _) (fun id _ => rfl)
  rw [hs.1, List.length_range]
  constructor
  · rw [List.getElem?_map, List.getElem?_range (by omega)]
    simp [ThreadName.new]
  · rw [List.getElem?_map, List.getElem?_range (by omega)]
    simp [ThreadName.new]

/-- Claim C1 witness: three distinct identities get indices 0, 1, 2. -/
theorem C1_witness :
    ((ThreadName.new true true).runTrace [5, 9, 2]).1 = (List.range 3).map some :=
  C1_distinct_indices [5, 9, 2] true (by decide) (by decide)

/-- Claim C9: the StyleIndex counter is an 8-bit value and
fetch-and-increment wraps modulo 256: in a fresh colorizing cache fed N
distinct identities, the k-th first-time lookup is assigned index
k % 256, so assignment is monotone and collision-free only for the
first 256 threads, and the 257th first-seen identity (k = 256) receives
index 0 again. -/
theorem C9_counter_wraps (ids : List Nat) (p : Bool) (h1 : ids.Nodup)
    (k : Nat) (hk : k < ids.length) :
    ((((ThreadName.new true p).runTrace ids).1)[k]? = some (some (k % 256))) ∧
    (((ThreadName.new true p).runTrace ids).2.index = ids.length % 256) := by
  have hs := runTrace_spec ids (ThreadName.new true p) rfl (by simp [ThreadName.new])
    h1 (fun id _ => rfl)
  constructor
  · rw [hs.1, List.getElem?_map, List.getElem?_range hk]
    simp [ThreadName.new]
  · rw [hs.2]
    simp [ThreadName.new]

/-- Claim C9 witness: the 257th first-seen identity receives index 0 and
the counter has wrapped to 1. -/
theorem C9_witness :
    ((((ThreadName.new true true).runTrace (List.range 257)).1)[256]? = some (some 0)) ∧
    (((ThreadName.new true true).runTrace (List.range 257)).2.index = 1) := by
  have h := C9_counter_wraps (List.range 257) true (List.nodup_range _) 256 (by simp)
  simpa using h

/-- Claim C2: every `styleFor` operation on the thread-color cache
preserves that there is at most one entry per identity, never removes
or changes an existing binding, and a call for an already-present
identity leaves the whole state (map and counter) unchanged. -/
theorem C2_append_only (s : ThreadName) (id id' : Nat) (st : Style) :
    (keysNodup s.thread_colors → keysNodup ((s.styleFor id).2.2).thread_colors) ∧
    (lookupStyle s.thread_colors id' = some st →
      lookupStyle ((s.styleFor id).2.2).thread_colors id' = some st) ∧
    (lookupStyle s.thread_colors id = some st → (s.styleFor id).2.2 = s) := by
  refine ⟨?_, styleFor_preserves_lookup s id id' st, ?_⟩
  · intro hkeys
    by_cases hc : s.colorize
    · match he : lookupStyle s.thread_colors id with
      | some st' => rw [styleFor_of_lookup_some s id st' (by simpa using hc) he]; exact hkeys
      | none =>
        rw [styleFor_of_lookup_none s id (by simpa using hc) he]
        have hnotin : id ∉ s.thread_colors.map Prod.fst :=
          (lookupStyle_eq_none_iff _ _).mp he
        unfold keysNodup at hkeys ⊢
        rw [keys_insertStyle_of_none _ _ _ he, List.nodup_append]
        refine ⟨hkeys, List.nodup_singleton id, ?_⟩
        intro a ha hmem
        have : a = id := by simpa using hmem
        subst this
        exact hnotin ha
    · rw [styleFor_of_not_colorize s id (by simpa using hc)]
      exact hkeys
  · intro hl
    by_cases hc : s.colorize
    · rw [styleFor_of_lookup_some s id st (by simpa using hc) hl]
    · rw [styleFor_of_not_colorize s id (by simpa using hc)]

/-- Claim C2 witness: in the concrete cache holding only identity 5, a
first-time call for 7 keeps the keys duplicate-free and keeps 5's
binding, and a repeated call for 5 leaves the state unchanged. -/
theorem C2_witness :
    (keysNodup (((((ThreadName.new true true).styleFor 5).2.2).styleFor 7).2.2).thread_colors) ∧
    (lookupStyle (((((ThreadName.new true true).styleFor 5).2.2).styleFor 7).2.2).thread_colors 5 =
      some (gen_color 0)) ∧
    ((((ThreadName.new true true).styleFor 5).2.2).styleFor 5).2.2 =
      ((ThreadName.new true true).styleFor 5).2.2 := by
  refine ⟨?_, ?_, ?_⟩
  · exact (C2_append_only (((ThreadName.new true true).styleFor 5).2.2) 7 5 (gen_color 0)).1
      (by decide)
  · exact (C2_append_only (((ThreadName.new true true).styleFor 5).2.2) 7 5 (gen_color 0)).2.1
      (by decide)
  · exact (C2_append_only (((ThreadName.new true true).styleFor 5).2.2) 5 5 (gen_color 0)).2.2
      (by decide)

/-- Claim C3: `styleFor` is idempotent per identity: any later call for
the same identity returns a style equal to the first call's, no matter
which other identities' (first-time) calls happen in between. -/
theorem C3_idempotent (s : ThreadName) (id : Nat) (others : List Nat) :
    ((((s.styleFor id).2.2).run others).styleFor id).1 = (s.styleFor id).1 := by
  by_cases hc : s.colorize
  · have hc' : s.colorize = true := by simpa using hc
    have h1 : lookupStyle ((s.styleFor id).2.2).thread_colors id = some (s.styleFor id).1 :=
      styleFor_lookup_self s id hc'
    have h2 := run_preserves_lookup others ((s.styleFor id).2.2) id _ h1
    have hc2 : (((s.styleFor id).2.2).run others).colorize = true := by
      rw [run_colorize, styleFor_colorize]
      exact hc'
    rw [styleFor_of_lookup_some _ id _ hc2 h2]
  · have hc' : s.colorize = false := by simpa using hc
    have hc2 : (((s.styleFor id).2.2).run others).colorize = false := by
      rw [run_colorize, styleFor_colorize]
      exact hc'
    rw [styleFor_of_not_colorize _ id hc2, styleFor_of_not_colorize s id hc']

/-- Claim C4: the palette is pure and total with period 28
(`gen_color (i + 28) = gen_color i`), injective on 0..27, and its 28
cells enumerate emphasis (2) x weight (2) x hue (7) with hue the
low-order (fastest-varying) axis, weight next, emphasis highest. -/
theorem C4_palette :
    (∀ i : Nat, gen_color (i + 28) = gen_color i) ∧
    (∀ i : Nat, i < 28 → ∀ j : Nat, j < 28 → gen_color i = gen_color j → i = j) ∧
    (∀ e : Nat, e < 2 → ∀ w : Nat, w < 2 → ∀ h : Nat, h < 7 →
      gen_color (e * 14 + w * 7 + h) = paletteStyle e w h) := by
  refine ⟨?_, ?_, ?_⟩
  · intro i
    simp only [gen_color, Nat.add_mod_right]
  · decide
  · decide

/-- Claim C4 witness: period at i = 5, injectivity at i = j = 3, and
the cell decomposition at emphasis 1, weight 1, hue 4. -/
theorem C4_witness :
    (gen_color (5 + 28) = gen_color 5) ∧ ((3 : Nat) = 3) ∧
    (gen_color (1 * 14 + 1 * 7 + 4) = paletteStyle 1 1 4) :=
  ⟨C4_palette.1 5,
   C4_palette.2.1 3 (by decide) 3 (by decide) rfl,
   C4_palette.2.2 1 (by decide) 1 (by decide) 4 (by decide)⟩

/-- Claim C5: with the Never color policy (resolved color decision
false and a non-colorizing cache), every record renders to a line that
carries the literal bracketed level label and no ANSI escape
character; concretely, an {Info, "app", "ready"} record with thread
names disabled at timestamp 09:05:01.123456 renders exactly as
"09:05:01.123456 [INFO] app: ready". -/
theorem C5_never_policy (now : Except Unit String) (tn : ThreadName) (rec : Record)
    (message : String) (cur : ThreadCtx) (hc : tn.colorize = false)
    (ht : escFree (timeDisplay now)) (htg : escFree rec.target)
    (hm : escFree message) (hl : escFree (threadLabel cur)) :
    (∃ out, renderLine false now tn rec message cur = some (out, tn) ∧
      out = timeDisplay now ++ (if tn.print then " " ++ ("(" ++ threadLabel cur ++ ")") else "") ++
        (" [" ++ levelName rec.level ++ "]") ++ " " ++ rec.target ++ ":" ++ (" " ++ message) ∧
      escFree out) ∧
    renderLine false (.ok "09:05:01.123456") (ThreadName.new false false)
        { level := .info, target := "app" } "ready" { id := 1, name := none } =
      some ("09:05:01.123456 [INFO] app: ready", ThreadName.new false false) := by
  constructor
  · refine ⟨_, ?_, rfl, ?_⟩
    · rw [renderLine, fmtR_of_not_colorize tn cur hc]
      simp [levelR, messageR, styled_new]
    · cases hp : tn.print <;>
        · simp only [hp, Bool.false_eq_true, if_false, if_true, escFree_append, escFree,
            String.data_append, List.mem_append, not_or]
          and_intros <;>
            first
              | exact ht
              | exact htg
              | exact hm
              | exact hl
              | exact escFree_levelName rec.level
              | decide
  · decide

/-- Claim C5 witness: the scenario record rendered under the Never
policy. -/
theorem C5_witness :
    renderLine false (.ok "09:05:01.123456") (ThreadName.new false false)
        { level := .info, target := "app" } "ready" { id := 1, name := none } =
      some ("09:05:01.123456 [INFO] app: ready", ThreadName.new false false) :=
  (C5_never_policy (.ok "09:05:01.123456") (ThreadName.new false false)
    { level := .info, target := "app" } "ready" { id := 1, name := none }
    rfl (by decide) (by decide) (by decide)
    (by simp [threadLabel, String.mk, natDigits, escFree]; decide)).2

/-- Claim C6: a `Format` builder value can be consumed into a renderer
any number of times; every materialization owns a fresh, empty thread
identity cache with its counter at 0, so no cache state of one renderer
is observable through another. -/
theorem C6_fresh_cache (f : Format) (probe : OutStream → Option ColorSupport)
    (oRes : Except Unit Int) :
    ((f.callback probe oRes).1.thread_name.thread_colors = []) ∧
    ((f.callback probe oRes).1.thread_name.index = 0) :=
  ⟨rfl, rfl⟩

/-- Claim C7: rendering cannot abort: for every record, color decision,
cache state, timestamp result and current thread (named or not),
`renderLine` terminates normally with a formatted line, and the numeric
thread-identity fallback parse always succeeds. -/
theorem C7_no_abort (use_color : Bool) (now : Except Unit String) (tn : ThreadName)
    (rec : Record) (message : String) (cur : ThreadCtx) :
    (∃ out tn', renderLine use_color now tn rec message cur = some (out, tn')) ∧
    threadid_as_u64 cur.id = some cur.id := by
  refine ⟨?_, threadid_roundtrip cur.id⟩
  rw [renderLine, ThreadName.fmtR]
  cases hp : tn.print with
  | false => simp
  | true =>
    cases hn : cur.name with
    | some name => simp
    | none => simp [threadid_roundtrip]

/-- Claim C8: a per-record timestamp formatting failure is replaced by
the fixed 15-character placeholder "??:??:??.??????" (same width as
"HH:MM:SS.ffffff") and no error propagates; when the local UTC offset
is unavailable at construction, the offset falls back to UTC (+0) and
the diagnostic is emitted exactly at construction time. -/
theorem C8_time_fallbacks :
    (∀ e : Unit, timeDisplay (.error e) = "??:??:??.??????") ∧
    ("??:??:??.??????".length = 15) ∧
    ("HH:MM:SS.ffffff".length = 15) ∧
    (∀ e : Unit, Time.new (.error e) = ({ offset := 0 }, true)) ∧
    (∀ o : Int, Time.new (.ok o) = ({ offset := o }, false)) ∧
    (∀ (f : Format) (probe : OutStream → Option ColorSupport) (e : Unit),
      (f.callback probe (.error e)).2 = true ∧
        (f.callback probe (.error e)).1.now.offset = 0) ∧
    (∀ (f : Format) (probe : OutStream → Option ColorSupport) (o : Int),
      (f.callback probe (.ok o)).2 = false ∧
        (f.callback probe (.ok o)).1.now.offset = o) := by
  refine ⟨fun e => rfl, by decide, by decide, fun e => rfl, fun o => rfl,
    fun f probe e => ⟨rfl, rfl⟩, fun f probe o => ⟨rfl, rfl⟩⟩

/-- Claim C10: when the resolved color decision is false, rendering the
thread segment leaves the cache state (map and counter) exactly as it
was, its output does not depend on the cache contents at all, and the
thread label is emitted with the empty style (no escape wrapper); this
holds even when `uniquely_color_threads` was requested, because the
materialized cache then has colorizing off while printing stays on. -/
theorem C10_no_cache_traffic (tn : ThreadName) (cur : ThreadCtx) (hc : tn.colorize = false)
    (probe : OutStream → Option ColorSupport) (oRes : Except Unit Int) :
    (tn.fmtR cur =
      some ((if tn.print then " " ++ ("(" ++ threadLabel cur ++ ")") else ""), tn)) ∧
    ((Format.new.uniquely_color_threads.callback probe oRes).1.thread_name.colorize = false) ∧
    ((Format.new.uniquely_color_threads.callback probe oRes).1.thread_name.print = true) :=
  ⟨fmtR_of_not_colorize tn cur hc, rfl, rfl⟩

/-- Claim C10 witness: a concrete non-colorizing cache with one entry
is untouched by rendering an unnamed thread's label. -/
theorem C10_witness :
    ((ThreadName.mk false true [(9, gen_color 3)] 4).fmtR { id := 42, name := none } =
      some (" (42)", ThreadName.mk false true [(9, gen_color 3)] 4)) ∧
    ((Format.new.uniquely_color_threads.callback (fun _ => none)
        (.ok 0)).1.thread_name.colorize = false) ∧
    ((Format.new.uniquely_color_threads.callback (fun _ => none)
        (.ok 0)).1.thread_name.print = true) := by
  have h := C10_no_cache_traffic (ThreadName.mk false true [(9, gen_color 3)] 4)
    { id := 42, name := none } rfl (fun _ => none) (.ok 0)
  simpa [threadLabel, natDigits, String.mk] using h
